import Mathlib

/-!
Shallow embedding of the claude-forge multi-file artifact parser
(`src/lib/zip-utils.ts`), its companion stream-consumption loop
(`src/app/page.tsx`, `handleGenerate`), and the packaging/export helper
(`createZip`).  JavaScript string operations (single-character `split`,
`slice`, `startsWith`, `toLowerCase`) and the specific regular expressions
used by the source are modelled by explicit executable functions over
`List Char`; `JSON.parse` is modelled by a fuel-based RFC 8259 parser.
-/

/-! ### JavaScript string primitives -/

/-- Model of JavaScript `s.split(sep)` for a single-character separator:
splits at every occurrence, keeping empty pieces, and always returns at
least one piece. -/
def splitChars (sep : Char) : List Char → List (List Char)
  | [] => [[]]
  | c :: cs =>
    if c = sep then [] :: splitChars sep cs
    else
      match splitChars sep cs with
      | [] => [[c]]
      | g :: gs => (c :: g) :: gs

/-- String-level wrapper for `splitChars`. -/
def jsSplit (sep : Char) (s : String) : List String :=
  (splitChars sep s.data).map (fun l => ⟨l⟩)

/-- Model of JavaScript `Array.prototype.pop()` after a split: the last
element, with a default for the (unreachable) empty case. -/
def lastD : List String → String → String
  | [], d => d
  | [x], _ => x
  | _ :: x :: xs, d => lastD (x :: xs) d

/-- Whether `pat` is a prefix of `s` (model of `String.prototype.startsWith`). -/
def prefixMatches : List Char → List Char → Bool
  | [], _ => true
  | _ :: _, [] => false
  | p :: ps, c :: cs => p = c && prefixMatches ps cs

/-- Finds the first occurrence of `pat` in `s` and returns the text before
it together with the text after it (the occurrence itself removed).
Returns `none` when `pat` does not occur.  This is the primitive behind
the lazy `[\s\S]*?` regex idiom used throughout the source. -/
def splitAtFirst (pat : List Char) : List Char → Option (List Char × List Char)
  | [] => if prefixMatches pat [] then some ([], []) else none
  | c :: cs =>
    if prefixMatches pat (c :: cs) then some ([], (c :: cs).drop pat.length)
    else
      match splitAtFirst pat cs with
      | some (before, after) => some (c :: before, after)
      | none => none

/-- Prefix of the list up to and including the last occurrence of `c`
(`none` when `c` does not occur): the primitive behind the greedy
`[\s\S]*` regex idiom. -/
def takeToLast (c : Char) : List Char → Option (List Char)
  | [] => none
  | x :: xs =>
    match takeToLast c xs with
    | some r => some (x :: r)
    | none => if x = c then some [x] else none

/-- Maximal prefix satisfying `p`, together with the remainder. -/
def spanP (p : Char → Bool) : List Char → (List Char × List Char)
  | [] => ([], [])
  | c :: cs =>
    if p c then
      match spanP p cs with
      | (pre, rest) => (c :: pre, rest)
    else ([], c :: cs)

/-- ASCII lower-casing of one character, the fragment of JavaScript
`toLowerCase` that is relevant to the classifier's ASCII lookup keys. -/
def lowerChar (c : Char) : Char :=
  if 65 ≤ c.toNat ∧ c.toNat ≤ 90 then Char.ofNat (c.toNat + 32) else c

/-- ASCII lower-casing of a string. -/
def asciiLower (s : String) : String := ⟨s.data.map lowerChar⟩

/-! ### JSON values (model of the results of `JSON.parse`) -/

/-- JSON value as produced by `JSON.parse`.  Numbers keep their sign, the
integer-part digits, the fraction digits and the decoded exponent. -/
inductive Json where
  | null : Json
  | bool (b : Bool) : Json
  | num (neg : Bool) (ip fp : String) (ex : Int) : Json
  | str (s : String) : Json
  | arr (elems : List Json) : Json
  | obj (fields : List (String × Json)) : Json

/-- JavaScript truthiness of a JSON value: `null`, `false`, numeric zero
and the empty string are falsy; every array and object is truthy. -/
def Json.truthy : Json → Bool
  | .null => false
  | .bool b => b
  | .num _ ip fp _ => !((ip ++ fp).data.all (fun c => c = '0'))
  | .str s => s ≠ ""
  | .arr _ => true
  | .obj _ => true

/-- Rendering of a JSON number, exact for the integral, exponent-free
values that occur in practice. -/
def numToStr (neg : Bool) (ip fp : String) (ex : Int) : String :=
  (if neg && !((ip ++ fp).data.all (fun c => c = '0')) then "-" else "")
    ++ ip ++ (if fp = "" then "" else "." ++ fp)
    ++ (if ex = 0 then "" else "e" ++ toString ex)

mutual
/-- JavaScript string coercion (`String(v)`) of a JSON value, used to model
`+=` and template-literal coercions on dynamically typed fields. -/
def jsToStr : Json → String
  | .null => "null"
  | .bool b => if b then "true" else "false"
  | .num n ip fp ex => numToStr n ip fp ex
  | .str s => s
  | .arr xs => jsArrStr xs
  | .obj _ => "[object Object]"

/-- Array-to-string coercion: elements joined by commas, `null` elements
rendered empty, as `Array.prototype.join` does. -/
def jsArrStr : List Json → String
  | [] => ""
  | [x] => jsElemStr x
  | x :: y :: xs => jsElemStr x ++ "," ++ jsArrStr (y :: xs)

/-- Element coercion inside an array join. -/
def jsElemStr : Json → String
  | .null => ""
  | .bool b => if b then "true" else "false"
  | .num n ip fp ex => numToStr n ip fp ex
  | .str s => s
  | .arr xs => jsArrStr xs
  | .obj _ => "[object Object]"
end

/-- Field access `v.k` on a JSON object; JavaScript property assignment
makes the last duplicate key win. Non-object values yield `none`
(undefined). -/
def lookupLastField : List (String × Json) → String → Option Json
  | [], _ => none
  | (k, v) :: rest, key =>
    match lookupLastField rest key with
    | some r => some r
    | none => if k = key then some v else none

/-- Property lookup on a JSON value (`undefined` is `none`). -/
def Json.getField : Json → String → Option Json
  | .obj fields, key => lookupLastField fields key
  | _, _ => none

/-- Truthiness of a possibly-undefined JavaScript value. -/
def optTruthy : Option Json → Bool
  | some v => v.truthy
  | none => false

/-! ### JSON parser (model of `JSON.parse`) -/

/-- The four whitespace characters accepted by `JSON.parse`. -/
def isJsonWs (c : Char) : Bool :=
  c = ' ' || c = '\t' || c = '\n' || c = '\r'

/-- Skips JSON whitespace. -/
def skipWs : List Char → List Char
  | [] => []
  | c :: cs => if isJsonWs c then skipWs cs else c :: cs

/-- Value of one hexadecimal digit. -/
def hexVal (c : Char) : Option Nat :=
  if '0' ≤ c ∧ c ≤ '9' then some (c.toNat - 48)
  else if 'a' ≤ c ∧ c ≤ 'f' then some (c.toNat - 87)
  else if 'A' ≤ c ∧ c ≤ 'F' then some (c.toNat - 55)
  else none

/-- Value of a four-hex-digit escape. -/
def hex4 (a b c d : Char) : Option Nat := do
  let va ← hexVal a
  let vb ← hexVal b
  let vc ← hexVal c
  let vd ← hexVal d
  pure (((va * 16 + vb) * 16 + vc) * 16 + vd)

/-- Scalar for a `\uXXXX` value; lone surrogates (representable in
JavaScript strings but not as Unicode scalar values) are modelled by the
replacement character. -/
def charOfCodeUnit (n : Nat) : Char :=
  if 0xD800 ≤ n ∧ n ≤ 0xDFFF then Char.ofNat 0xFFFD else Char.ofNat n

/-- Parses the body of a JSON string (after the opening quote), handling
the escapes `JSON.parse` accepts and combining surrogate pairs.  The fuel
decreases on every step while at least one character is consumed, so a
fuel of the input length plus one never runs out early. -/
def parseJStringAux : Nat → List Char → Option (List Char × List Char)
  | 0, _ => none
  | _ + 1, [] => none
  | _ + 1, '"' :: rest => some ([], rest)
  | fuel + 1, '\\' :: 'u' :: a :: b :: c :: d :: '\\' :: 'u' :: e :: f :: g :: h :: rest =>
    match hex4 a b c d with
    | none => none
    | some n =>
      if 0xD800 ≤ n ∧ n ≤ 0xDBFF then
        match hex4 e f g h with
        | none => none
        | some m =>
          if 0xDC00 ≤ m ∧ m ≤ 0xDFFF then
            match parseJStringAux fuel rest with
            | some (s, r) =>
              some (Char.ofNat (0x10000 + (n - 0xD800) * 0x400 + (m - 0xDC00)) :: s, r)
            | none => none
          else
            match parseJStringAux fuel rest with
            | some (s, r) => some (charOfCodeUnit n :: charOfCodeUnit m :: s, r)
            | none => none
      else
        match parseJStringAux fuel ('\\' :: 'u' :: e :: f :: g :: h :: rest) with
        | some (s, r) => some (charOfCodeUnit n :: s, r)
        | none => none
  | fuel + 1, '\\' :: 'u' :: a :: b :: c :: d :: rest =>
    match hex4 a b c d with
    | none => none
    | some n =>
      match parseJStringAux fuel rest with
      | some (s, r) => some (charOfCodeUnit n :: s, r)
      | none => none
  | fuel + 1, '\\' :: e :: rest =>
    match parseJStringAux fuel rest with
    | some (s, r) =>
      match e with
      | '"' => some ('"' :: s, r)
      | '\\' => some ('\\' :: s, r)
      | '/' => some ('/' :: s, r)
      | 'b' => some (Char.ofNat 8 :: s, r)
      | 'f' => some (Char.ofNat 12 :: s, r)
      | 'n' => some ('\n' :: s, r)
      | 'r' => some ('\r' :: s, r)
      | 't' => some ('\t' :: s, r)
      | _ => none
    | none => none
  | fuel + 1, c :: rest =>
    if c.toNat < 0x20 then none
    else
      match parseJStringAux fuel rest with
      | some (s, r) => some (c :: s, r)
      | none => none

/-- Digit test. -/
def isDigitCh (c : Char) : Bool := '0' ≤ c && c ≤ '9'

/-- Parses a JSON number starting at `cs` (which must begin with `-` or a
digit), following the RFC 8259 grammar `JSON.parse` enforces. -/
def parseNumber (cs : List Char) : Option (Json × List Char) :=
  let (neg, cs1) := match cs with
    | '-' :: rest => (true, rest)
    | _ => (false, cs)
  match spanP isDigitCh cs1 with
  | ([], _) => none
  | (ipDigits, cs2) =>
    if ipDigits.length > 1 ∧ ipDigits.headD '0' = '0' then none
    else
      let (fpDigits, cs3) :=
        match cs2 with
        | '.' :: rest =>
          match spanP isDigitCh rest with
          | ([], _) => ([], '.' :: rest)
          | (ds, r) => (ds, r)
        | _ => ([], cs2)
      if cs2 ≠ cs3 ∨ ¬(cs2.headD ' ' = '.') then
        match cs3 with
        | e :: rest =>
          if e = 'e' ∨ e = 'E' then
            let (esign, rest1) := match rest with
              | '+' :: r => ((1 : Int), r)
              | '-' :: r => ((-1 : Int), r)
              | _ => ((1 : Int), rest)
            match spanP isDigitCh rest1 with
            | ([], _) => none
            | (eds, rest2) =>
              let ev : Nat := eds.foldl (fun acc d => acc * 10 + (d.toNat - 48)) 0
              some (.num neg ⟨ipDigits⟩ ⟨fpDigits⟩ (esign * (ev : Int)), rest2)
          else some (.num neg ⟨ipDigits⟩ ⟨fpDigits⟩ 0, e :: rest)
        | [] => some (.num neg ⟨ipDigits⟩ ⟨fpDigits⟩ 0, [])
      else none

mutual
/-- Parses one JSON value after skipping leading whitespace; `fuel`
decreases on every recursive call and is sized generously by the caller. -/
def parseValue : Nat → List Char → Option (Json × List Char)
  | 0, _ => none
  | fuel + 1, cs =>
    match skipWs cs with
    | [] => none
    | '{' :: rest =>
      match skipWs rest with
      | '}' :: rest2 => some (.obj [], rest2)
      | other => match parseMembers fuel other with
        | some (fields, r) => some (.obj fields, r)
        | none => none
    | '[' :: rest =>
      match skipWs rest with
      | ']' :: rest2 => some (.arr [], rest2)
      | other => match parseElems fuel other with
        | some (elems, r) => some (.arr elems, r)
        | none => none
    | '"' :: rest =>
      match parseJStringAux (rest.length + 1) rest with
      | some (s, r) => some (.str ⟨s⟩, r)
      | none => none
    | 't' :: 'r' :: 'u' :: 'e' :: rest => some (.bool true, rest)
    | 'f' :: 'a' :: 'l' :: 's' :: 'e' :: rest => some (.bool false, rest)
    | 'n' :: 'u' :: 'l' :: 'l' :: rest => some (.null, rest)
    | c :: rest =>
      if c = '-' ∨ isDigitCh c then parseNumber (c :: rest) else none

/-- Parses the members of an object (positioned at the first key). -/
def parseMembers : Nat → List Char → Option (List (String × Json) × List Char)
  | 0, _ => none
  | fuel + 1, cs =>
    match skipWs cs with
    | '"' :: rest =>
      match parseJStringAux (rest.length + 1) rest with
      | some (k, r1) =>
        match skipWs r1 with
        | ':' :: r2 =>
          match parseValue fuel r2 with
          | some (v, r3) =>
            match skipWs r3 with
            | ',' :: r4 =>
              match parseMembers fuel r4 with
              | some (fields, r5) => some ((⟨k⟩, v) :: fields, r5)
              | none => none
            | '}' :: r4 => some ([(⟨k⟩, v)], r4)
            | _ => none
          | none => none
        | _ => none
      | none => none
    | _ => none

/-- Parses the elements of an array (positioned at the first element). -/
def parseElems : Nat → List Char → Option (List Json × List Char)
  | 0, _ => none
  | fuel + 1, cs =>
    match parseValue fuel cs with
    | some (v, r1) =>
      match skipWs r1 with
      | ',' :: r2 =>
        match parseElems fuel r2 with
        | some (elems, r3) => some (v :: elems, r3)
        | none => none
      | ']' :: r2 => some ([v], r2)
      | _ => none
    | none => none
end

/-- Model of `JSON.parse`: `none` models a thrown `SyntaxError`.  The fuel
exceeds the nesting depth of any input, so exhaustion never fires before
a genuine syntax error would. -/
def jsonParse (s : String) : Option Json :=
  match parseValue (s.data.length + 1) s.data with
  | some (v, rest) => if skipWs rest = [] then some v else none
  | none => none

/-! ### Regex models for `parseMultiFileResponse`

The source uses four regular expressions; each is modelled by an explicit
search function with the exact leftmost / lazy / greedy / global semantics
of the JavaScript engine on that pattern. -/

/-- Match of `response.match(/```json\n([\s\S]*?)\n```/)`: the leftmost
occurrence of the literal fence opener followed lazily by the first
occurrence of a newline-and-closing-fence.  Returns (capture group 1,
full match).  When the first fence opener has no closer after it, no
later one does either, so leftmost search on the opener is faithful. -/
def jsonFenceMatch (s : String) : Option (String × String) :=
  match splitAtFirst "```json\n".data s.data with
  | none => none
  | some (_, afterOpen) =>
    match splitAtFirst "\n```".data afterOpen with
    | none => none
    | some (mid, _) => some (⟨mid⟩, "```json\n" ++ ⟨mid⟩ ++ "\n```")

/-- Match of `response.match(/{[\s\S]*}/)`: from the leftmost opening brace
that has a closing brace after it, greedily to the last closing brace of
the string.  The pattern has no capture group, so only the full match is
returned. -/
def braceMatch (s : String) : Option String :=
  match splitAtFirst ['{'] s.data with
  | none => none
  | some (_, afterBrace) =>
    match takeToLast '}' afterBrace with
    | none => none
    | some upToClose => some ⟨'{' :: upToClose⟩

/-- One fenced code block as captured by `/```(\w*)\n([\s\S]*?)```/`:
the word-character language tag after the opening fence and the lazily
matched content before the closing fence. -/
structure FencedBlock where
  tag : String
  content : String
deriving Repr, DecidableEq

/-- JavaScript `\w` (the regexes carry no unicode flag): ASCII letters,
digits and underscore. -/
def isWordChar (c : Char) : Bool := c.isAlpha || c.isDigit || c = '_'

/-- Attempts the fence pattern at the current position: three backticks, a
maximal word-character run, a newline, then lazy content up to the first
closing triple backtick.  Backtracking the greedy `\w*` run can never
succeed (every shorter prefix is followed by a word character, not a
newline), so requiring the newline right after the maximal run is
faithful.  Returns the block and the remainder after the match. -/
def tryFenceAt : List Char → Option (FencedBlock × List Char)
  | '`' :: '`' :: '`' :: rest =>
    match spanP isWordChar rest with
    | (w, '\n' :: afterNl) =>
      match splitAtFirst ['`', '`', '`'] afterNl with
      | some (content, rest') => some (⟨⟨w⟩, ⟨content⟩⟩, rest')
      | none => none
    | _ => none
  | _ => none

/-- Global scan of `response.match(/```(\w*)\n([\s\S]*?)```/g)`: repeated
leftmost matches, each search resuming at the end of the previous match
(every match is at least seven characters, so `lastIndex` never stalls). -/
def scanFencesAux : Nat → List Char → List FencedBlock
  | 0, _ => []
  | _ + 1, [] => []
  | fuel + 1, c :: cs =>
    match tryFenceAt (c :: cs) with
    | some (b, rest) => b :: scanFencesAux fuel rest
    | none => scanFencesAux fuel cs

/-- All fenced code blocks of the text, in order. -/
def scanFences (s : List Char) : List FencedBlock :=
  scanFencesAux s.length s

/-! ### Regex model for `filesToArtifact`'s name extraction -/

/-- Characters JavaScript `\s` matches. -/
def isJsWs (c : Char) : Bool :=
  c = ' ' || c = '\t' || c = '\n' || c.toNat = 11 || c.toNat = 12 || c = '\r' ||
  c.toNat = 0xa0 || c.toNat = 0x1680 ||
  (0x2000 ≤ c.toNat && c.toNat ≤ 0x200a) ||
  c.toNat = 0x2028 || c.toNat = 0x2029 || c.toNat = 0x202f ||
  c.toNat = 0x205f || c.toNat = 0x3000 || c.toNat = 0xfeff

/-- Line terminators: the characters `.` does not match and `$`/`^` anchor
around in multiline mode. -/
def isLineTerm (c : Char) : Bool :=
  c = '\n' || c = '\r' || c.toNat = 0x2028 || c.toNat = 0x2029

/-- Backtracking of the greedy `\s*` before `(.+)$`: the consumed
whitespace is retried from longest to shortest until the remainder starts
with a character `.` can match; the `(.+)` capture is then the maximal
run of non-terminator characters, after which `$` necessarily holds. -/
def tryNameBacktrack : List Char → List Char → Option String
  | wsRev, rest =>
    match spanP (fun c => !isLineTerm c) rest with
    | (c :: cap, _) => some ⟨c :: cap⟩
    | ([], _) =>
      match wsRev with
      | [] => none
      | w :: ws => tryNameBacktrack ws (w :: rest)

/-- Attempts `name:\s*(.+)$` at one `^` anchor position. -/
def tryNameAt (cs : List Char) : Option String :=
  if prefixMatches "name:".data cs then
    match spanP isJsWs (cs.drop 5) with
    | (ws, tail) => tryNameBacktrack ws.reverse tail
  else none

/-- Advances to the next `^` anchor position: just past the next line
terminator. -/
def nextAnchor : List Char → Option (List Char)
  | [] => none
  | c :: rest => if isLineTerm c then some rest else nextAnchor rest

/-- Model of `content.match(/^name:\s*(.+)$/m)`, returning capture group 1
of the leftmost match.  With the multiline flag, `^` only matches at the
start and right after line terminators, so scanning anchors left to right
is faithful. -/
def matchNameLine (content : String) : Option String :=
  matchNameAux (content.data.length + 1) content.data
where
  /-- Tries each anchor position in order; fuel covers one step per
  consumed character. -/
  matchNameAux : Nat → List Char → Option String
    | 0, _ => none
    | fuel + 1, cs =>
      match tryNameAt cs with
      | some g => some g
      | none =>
        match nextAnchor cs with
        | some rest => matchNameAux fuel rest
        | none => none

/-! ### Data model (`src/types/index.ts`) -/

/-- EditorFile from `src/types/index.ts`: one unit of parsed output. -/
structure EditorFile where
  id : String
  path : String
  content : String
  language : String
deriving Repr, DecidableEq

/-- ArtifactFile from `src/types/index.ts`. -/
structure ArtifactFile where
  path : String
  content : String
  language : String
deriving Repr, DecidableEq

/-- ArtifactManifest as constructed by `filesToArtifact`. -/
structure ArtifactManifest where
  name : String
  rootStructure : String
deriving Repr, DecidableEq

/-- Artifact as constructed by `filesToArtifact`. -/
structure Artifact where
  name : String
  type : String
  content : String
  files : List ArtifactFile
  isMultiFile : Bool
  manifest : ArtifactManifest
deriving Repr, DecidableEq

/-! ### `zip-utils.ts`: classifier -/

/-- The `extensions` record of `getFileExtension`, in source order. -/
def extensionsTable : List (String × String) :=
  [("markdown", "md"), ("typescript", "ts"), ("javascript", "js"),
   ("json", "json"), ("yaml", "yaml"), ("html", "html"), ("css", "css"),
   ("plaintext", "txt")]

/-- First-match lookup in a record literal (JavaScript object literals have
no duplicate keys, so first-match equals property access). -/
def lookupStr : List (String × String) → String → Option String
  | [], _ => none
  | (k, v) :: rest, key => if key = k then some v else lookupStr rest key

/-- `getFileExtension` from `zip-utils.ts`: language to default extension,
`"txt"` for unknown languages. -/
def getFileExtension (language : String) : String :=
  match lookupStr extensionsTable language with
  | some e => e
  | none => "txt"

/-- The `languages` record of `getLanguageFromPath`, in source order. -/
def languagesTable : List (String × String) :=
  [("md", "markdown"), ("tsx", "typescript"), ("ts", "typescript"),
   ("jsx", "javascript"), ("js", "javascript"), ("json", "json"),
   ("css", "css"), ("html", "html"), ("yaml", "yaml"), ("yml", "yaml"),
   ("txt", "plaintext")]

/-- The extension `getLanguageFromPath` computes:
`path.split('.').pop()?.toLowerCase()` (the split result is never empty,
and the table keys are ASCII, for which per-character lower-casing agrees
with JavaScript `toLowerCase`). -/
def pathExtension (path : String) : String :=
  asciiLower (lastD (jsSplit '.' path) "")

/-- `getLanguageFromPath` from `zip-utils.ts`: extension to language,
`"plaintext"` for unknown extensions. -/
def getLanguageFromPath (path : String) : String :=
  match lookupStr languagesTable (pathExtension path) with
  | some l => l
  | none => "plaintext"

/-! ### `zip-utils.ts`: `parseMultiFileResponse` -/

/-- Outcome of the structured-JSON first tier of `parseMultiFileResponse`
(the `try` block).  `success` models the early `return { files, manifest }`;
`fallthrough` models every path that reaches the markdown tier — no match,
a `JSON.parse` throw, a missing or non-array `files` property, or a throw
inside the `forEach` — carrying the files already pushed onto the shared
`files` array before the throw. -/
inductive JsonTierResult where
  | success (files : List EditorFile) (manifest : Option Json)
  | fallthrough (residue : List EditorFile)

/-- The candidate text handed to `JSON.parse`:
`response.match(/```json\n([\s\S]*?)\n```/) || response.match(/{[\s\S]*}/)`,
then `jsonMatch[1] || jsonMatch[0]` (the brace pattern has no group, so
group 1 is undefined there; a fence match with an empty group falls back
to the full match). -/
def jsonCandidate (s : String) : Option String :=
  match jsonFenceMatch s with
  | some (g1, full) => some (if g1 = "" then full else g1)
  | none => braceMatch s

/-- The string coercion `f.path || ...` feeds to `getLanguageFromPath`:
`some` the argument string, or `none` when the truthy value is not a
string (calling `.split` on it would throw a `TypeError`). -/
def pathArgOrEmpty : Option Json → Option String
  | some (.str s) => some s
  | some v => if v.truthy then none else some ""
  | none => some ""

/-- Conversion of one element of a parsed `files` array, modelling the
`forEach` callback body.  `none` models a thrown `TypeError`: reading
`.path` of a `null` element, or calling `.split` on a truthy non-string
path when the language must be derived.  Truthy non-string field values
are represented through their JavaScript string coercion. -/
def jsonFileToEditorFile (index : Nat) (f : Json) : Option EditorFile :=
  match f with
  | .null => none
  | _ =>
    let pathV := f.getField "path"
    let path : String :=
      match pathV with
      | some v => if v.truthy then jsToStr v else "file-" ++ toString index ++ ".md"
      | none => "file-" ++ toString index ++ ".md"
    let content : String :=
      match f.getField "content" with
      | some v => if v.truthy then jsToStr v else ""
      | none => ""
    match f.getField "language" with
    | some lv =>
      if lv.truthy then
        some ⟨"file-" ++ toString index, path, content, jsToStr lv⟩
      else
        (pathArgOrEmpty pathV).map
          (fun a => ⟨"file-" ++ toString index, path, content, getLanguageFromPath a⟩)
    | none =>
      (pathArgOrEmpty pathV).map
        (fun a => ⟨"file-" ++ toString index, path, content, getLanguageFromPath a⟩)

/-- The `forEach` over the `files` array: pushes converted files in order;
on a throw at some element it stops, reporting the files pushed so far
and that a throw occurred. -/
def convertJsonFiles (index : Nat) : List Json → (List EditorFile × Bool)
  | [] => ([], false)
  | f :: fs =>
    match jsonFileToEditorFile index f with
    | none => ([], true)
    | some ef =>
      match convertJsonFiles (index + 1) fs with
      | (rest, threw) => (ef :: rest, threw)

/-- The structured-JSON tier of `parseMultiFileResponse`.  `JSON.parse` of
`"null"` yields `null`, on which the `parsed.files` access throws. -/
def jsonTier (response : String) : JsonTierResult :=
  match jsonCandidate response with
  | none => .fallthrough []
  | some cand =>
    match jsonParse cand with
    | none => .fallthrough []
    | some .null => .fallthrough []
    | some parsed =>
      match parsed.getField "files" with
      | some (.arr elems) =>
        match convertJsonFiles 0 elems with
        | (pushed, true) => .fallthrough pushed
        | (pushed, false) =>
          let manifest : Option Json :=
            match parsed.getField "manifest" with
            | some m => if m.truthy then some m else none
            | none => none
          .success pushed manifest
      | _ => .fallthrough []

/-- Result type of `parseMultiFileResponse`; the optional manifest is kept
as the raw JSON value the source propagates unchanged (or constructs
inline in the fenced-block tier). -/
structure ParseResult where
  files : List EditorFile
  manifest : Option Json

/-- One file of the fenced-block tier: an untagged or empty-tagged block
gets language `markdown` (`langMatch?.[1] || 'markdown'`); the first block
is named `SKILL.md`, later blocks `src/file-<index>.<ext>` with the
extension derived from the language.  Re-matching the block string, as the
source does, reproduces exactly its tag and content (the content of a
global lazy match never contains a closing fence). -/
def blockToFile (index : Nat) (b : FencedBlock) : EditorFile :=
  let language := if b.tag = "" then "markdown" else b.tag
  let ext := getFileExtension language
  let path :=
    if index = 0 then "SKILL.md"
    else "src/file-" ++ toString index ++ "." ++ ext
  ⟨"file-" ++ toString index, path, b.content, language⟩

/-- The `forEach` of the fenced-block tier. -/
def blocksToFiles (index : Nat) : List FencedBlock → List EditorFile
  | [] => []
  | b :: bs => blockToFile index b :: blocksToFiles (index + 1) bs

/-- The manifest literal returned by the fenced-block tier. -/
def flatManifest : Json :=
  .obj [("name", .str "multi-file-artifact"), ("rootStructure", .str "flat")]

/-- `parseMultiFileResponse` from `zip-utils.ts`: structured JSON tier,
then the fenced-block tier when more than one block exists, then the
whole-response single-file fallback.  The `files` array is shared across
tiers, so residue pushed before a JSON-tier throw stays in front. -/
def parseMultiFileResponse (response : String) : ParseResult :=
  match jsonTier response with
  | .success files manifest => ⟨files, manifest⟩
  | .fallthrough residue =>
    let codeBlocks := scanFences response.data
    if codeBlocks.length > 1 then
      ⟨residue ++ blocksToFiles 0 codeBlocks, some flatManifest⟩
    else
      ⟨residue ++ [⟨"file-0", "artifact.md", response, "markdown"⟩], none⟩

/-! ### `zip-utils.ts`: `filesToArtifact` -/

/-- `filesToArtifact` from `zip-utils.ts`: name extracted from a
`name:` line of the first file's content, `isMultiFile` equal to
`files.length > 1`, manifest root structure `nested` for several files
and `flat` otherwise. -/
def filesToArtifact (files : List EditorFile) (type : String) : Artifact :=
  let nameMatch : Option String :=
    match files.head? with
    | some f => matchNameLine f.content
    | none => none
  let name :=
    match nameMatch with
    | some g => if g = "" then "multi-file-artifact" else g
    | none => "multi-file-artifact"
  { name := name
    type := type
    content := (files.head?.map (fun f => f.content)).getD ""
    files := files.map (fun f => ⟨f.path, f.content, f.language⟩)
    isMultiFile := decide (files.length > 1)
    manifest := ⟨name, if files.length > 1 then "nested" else "flat"⟩ }

/-! ### `zip-utils.ts`: `createZip` -/

/-- Observable outcome of `createZip`: a direct single-file download, or a
zip archive holding one entry per `zip.file(path, content)` call, in call
order. -/
inductive ZipOutcome where
  | singleDownload (fileName : String) (content : String)
  | archive (entries : List (String × String)) (zipName : String)
deriving Repr, DecidableEq

/-- `createZip` from `zip-utils.ts`: throws on an empty list, downloads a
lone file directly under the last segment of its path (defaulting to
`artifact` when that segment is empty), and otherwise adds every file to
the archive under its relative path. -/
def createZip (files : List EditorFile) (zipName : String) :
    Except String ZipOutcome :=
  match files with
  | [] => .error "No files to zip"
  | [file] =>
    let seg := lastD (jsSplit '/' file.path) ""
    .ok (.singleDownload (if seg = "" then "artifact" else seg) file.content)
  | _ =>
    .ok (.archive (files.map (fun f => (f.path, f.content))) zipName)

/-! ### `page.tsx`: the stream-consumption loop of `handleGenerate`

The loop decodes each network chunk, splits the decoded text on newlines
with no carry-over buffer between chunks, and handles each line that
starts with `data: `.  Inside the per-line `try`, a parsed envelope with a
truthy `content` appends an increment; otherwise a truthy `error` field
throws a generation error — which the same bare `catch` (written to skip
invalid JSON lines) immediately swallows. -/

/-- Accumulated state of the loop: `fullContent` and the ordered list of
content increments appended so far (one per `setGenerated` call). -/
structure StreamState where
  fullContent : String
  increments : List String
deriving Repr, DecidableEq

/-- Exceptions thrown inside the per-line `try` block, and the generation
failure thrown after the loop. -/
inductive JsError where
  | jsonSyntaxError : JsError
  | typeError : JsError
  | generationFailed (message : String) : JsError
deriving Repr, DecidableEq

/-- Body of the per-line `try` block for the remainder `data` of a
`data: ` line (page.tsx 224-232): parse the JSON envelope — a failure
throws — then append a truthy `content`, else throw a generation error
for a truthy `error` field.  Reading `.content` of a parsed `null`
throws a `TypeError`. -/
def dataLineBody (st : StreamState) (data : String) : Except JsError StreamState :=
  match jsonParse data with
  | none => .error .jsonSyntaxError
  | some .null => .error .typeError
  | some parsed =>
    match parsed.getField "content" with
    | some cv =>
      if cv.truthy then
        .ok ⟨st.fullContent ++ jsToStr cv, st.increments ++ [jsToStr cv]⟩
      else
        match parsed.getField "error" with
        | some ev => if ev.truthy then .error (.generationFailed (jsToStr ev)) else .ok st
        | none => .ok st
    | none =>
      match parsed.getField "error" with
      | some ev => if ev.truthy then .error (.generationFailed (jsToStr ev)) else .ok st
      | none => .ok st

/-- Handling of one line (page.tsx 219-235): only `data: ` lines are
considered; the `[DONE]` sentinel is skipped with `continue`; every throw
from the `try` body — including the deliberate generation error — is
swallowed by the bare `catch`, leaving the state unchanged. -/
def processLine (st : StreamState) (line : String) : StreamState :=
  if prefixMatches "data: ".data line.data then
    let data : String := ⟨line.data.drop 6⟩
    if data = "[DONE]" then st
    else
      match dataLineBody st data with
      | .ok st' => st'
      | .error _ => st
  else st

/-- Folds the per-line handler over a list of lines. -/
def processLines (st : StreamState) (lines : List String) : StreamState :=
  lines.foldl processLine st

/-- Handling of one decoded chunk (page.tsx 215-236): the chunk is split
on newlines in isolation — no partial-line buffer is carried between
chunks. -/
def consumeChunk (st : StreamState) (chunk : String) : StreamState :=
  processLines st (jsSplit '\n' chunk)

/-- The whole reader loop over the ordered decoded chunks of the stream. -/
def consumeStream (chunks : List String) : StreamState :=
  chunks.foldl consumeChunk ⟨"", []⟩

/-- The loop followed by the post-loop guard (page.tsx 241-246): an empty
`fullContent` is falsy, so a generation error with the fixed no-content
message is thrown; otherwise the accumulated state flows on to parsing. -/
def handleGenerateStream (chunks : List String) : Except JsError StreamState :=
  let st := consumeStream chunks
  if st.fullContent = "" then
    .error (.generationFailed "No content was generated. Please try again.")
  else .ok st

/-! ### `page.tsx`: the post-parse UI branch of `handleGenerate` -/

/-- Observable state updates of the branch on the parse result
(page.tsx 249-261). -/
structure UiOutcome where
  editorFiles : Option (List EditorFile)
  activeFileId : Option String
  isMultiFile : Bool
  generated : String
deriving Repr, DecidableEq

/-- The branch after parsing: more than one parsed file enters the
multi-file branch (editor files set, first file active, raw response
kept); otherwise the single-file branch keeps the lone file's content,
falling back to the raw response when that content is empty. -/
def handleParsedResult (fullContent : String) : UiOutcome :=
  let parsedResult := parseMultiFileResponse fullContent
  if parsedResult.files.length > 1 then
    { editorFiles := some parsedResult.files
      activeFileId := some ((parsedResult.files.head?.map (fun f => f.id)).getD "")
      isMultiFile := true
      generated := fullContent }
  else
    { editorFiles := none
      activeFileId := none
      isMultiFile := false
      generated :=
        match parsedResult.files.head? with
        | some f => if f.content = "" then fullContent else f.content
        | none => fullContent }

/-! ### Helper lemmas -/

/-- Concatenation of strings is associative (needed to normalise the
path literals the source builds by template concatenation). -/
theorem strAppend_assoc (a b c : String) : a ++ b ++ c = a ++ (b ++ c) := by
  cases a with | mk la =>
  cases b with | mk lb =>
  cases c with | mk lc =>
  show String.mk ((la ++ lb) ++ lc) = String.mk (la ++ (lb ++ lc))
  rw [List.append_assoc]

/-- The fenced-block tier produces exactly one file per block. -/
theorem blocksToFiles_length (i : Nat) (bs : List FencedBlock) :
    (blocksToFiles i bs).length = bs.length := by
  induction bs generalizing i with
  | nil => rfl
  | cons b bs ih => simp [blocksToFiles, ih]

/-! ### Claims -/

/-- C1 (code evaluation at the failing input): the claim says an `error`
envelope aborts consumption and surfaces its message as a generation
failure.  On the stream consisting only of `data: {"error":"rate limited"}`
and a blank line, the code instead swallows the deliberately thrown
generation error in the same `catch` that skips invalid JSON lines,
finishes the stream, and then fails with the generic no-content message;
no content increments are emitted. -/
theorem c1_error_envelope_swallowed :
    handleGenerateStream ["data: \x7b\"error\":\"rate limited\"\x7d\n\n"] =
      Except.error (JsError.generationFailed
        "No content was generated. Please try again.") ∧
    (consumeStream ["data: \x7b\"error\":\"rate limited\"\x7d\n\n"]).increments = [] :=
  ⟨rfl, rfl⟩

/-- C2 (counterexample): the input `{"files":[]}` matches the JSON tier
with an empty `files` array, so the parser returns zero files, refuting
the claim that every input yields at least one file. -/
theorem c2_empty_files_counterexample :
    (parseMultiFileResponse "\x7b\"files\":[]\x7d").files.length = 0 := rfl

/-- C2 (amended): parsing is total — the embedding returns a result on
every string, with every throwing path of the source modelled and
absorbed — and the result contains at least one file, except exactly when
the structured-JSON tier succeeds with an empty `files` array, in which
case the parser returns zero files. -/
theorem c2_parser_totality_amended (s : String) :
    1 ≤ (parseMultiFileResponse s).files.length ∨
    ∃ m, jsonTier s = JsonTierResult.success [] m := by
  cases h : jsonTier s with
  | success fs m =>
    have he : parseMultiFileResponse s = ⟨fs, m⟩ := by
      unfold parseMultiFileResponse; rw [h]
    cases fs with
    | nil => exact Or.inr ⟨m, rfl⟩
    | cons f fs' => left; rw [he]; simp
  | fallthrough residue =>
    left
    by_cases hb : (scanFences s.data).length > 1
    · have he : parseMultiFileResponse s =
          ⟨residue ++ blocksToFiles 0 (scanFences s.data), some flatManifest⟩ := by
        unfold parseMultiFileResponse; rw [h]; simp [hb]
      rw [he]
      simp only [List.length_append, blocksToFiles_length]
      omega
    · have he : parseMultiFileResponse s =
          ⟨residue ++ [⟨"file-0", "artifact.md", s, "markdown"⟩], none⟩ := by
        unfold parseMultiFileResponse; rw [h]; simp [hb]
      rw [he]
      simp only [List.length_append, List.length_cons, List.length_nil]
      omega

/-- C3 (code evaluation at the failing input): the claim says the
increment sequence is independent of chunk boundaries.  The two chunk
lists below carry the same logical stream text — the third conjunct — yet
the unsplit stream emits the increment `x` while the mid-line split emits
nothing, because each chunk is split on newlines in isolation with no
pending-partial-line buffer. -/
theorem c3_chunk_boundary_dependence :
    (consumeStream ["data: \x7b\"content\":\"x\"\x7d\n"]).increments = ["x"] ∧
    (consumeStream ["data: \x7b\"cont", "ent\":\"x\"\x7d\n"]).increments = [] ∧
    "data: \x7b\"cont" ++ "ent\":\"x\"\x7d\n" = "data: \x7b\"content\":\"x\"\x7d\n" :=
  ⟨rfl, rfl, rfl⟩

/-- C4: the structured-JSON tier strictly precedes the fenced-block tier:
whenever the JSON tier succeeds on the input — even one that also carries
two or more fenced code blocks — the parser returns exactly the
JSON-derived files and manifest. -/
theorem c4_json_precedence (s : String) (fs : List EditorFile) (m : Option Json)
    (hjson : jsonTier s = JsonTierResult.success fs m)
    (_hblocks : 2 ≤ (scanFences s.data).length) :
    parseMultiFileResponse s = ⟨fs, m⟩ := by
  unfold parseMultiFileResponse; rw [hjson]

/-- C4 witness: a concrete input holding a `files`-bearing JSON fence and
three fenced blocks in total; the parser returns the JSON-derived file. -/
theorem c4_json_precedence_witness :
    parseMultiFileResponse "```json\n\x7b\"files\":[\x7b\"path\":\"a.ts\",\"content\":\"A\"\x7d]\x7d\n```\n```ts\nx\n```\n```js\ny\n```" =
      ⟨[⟨"file-0", "a.ts", "A", "typescript"⟩], none⟩ :=
  c4_json_precedence _ _ _ (by rfl) (by decide)

/-- C5: when the JSON tier falls through with nothing pushed and the text
holds exactly three fenced blocks tagged `markdown`, `typescript`, `json`,
the parser returns exactly three files: the first named `SKILL.md`
regardless of its tag, the others named positionally `src/file-1.ts` and
`src/file-2.json`, languages in order of appearance, and the manifest has
root structure `flat`. -/
theorem c5_three_blocks (s : String) (t1 t2 t3 : String)
    (hjson : jsonTier s = JsonTierResult.fallthrough [])
    (hblocks : scanFences s.data =
      [⟨"markdown", t1⟩, ⟨"typescript", t2⟩, ⟨"json", t3⟩]) :
    parseMultiFileResponse s =
      ⟨[⟨"file-0", "SKILL.md", t1, "markdown"⟩,
        ⟨"file-1", "src/file-1.ts", t2, "typescript"⟩,
        ⟨"file-2", "src/file-2.json", t3, "json"⟩], some flatManifest⟩ := by
  unfold parseMultiFileResponse
  rw [hjson]
  simp only [hblocks]
  rfl

/-- C5 witness: a concrete three-block input (whose `json` block content
does not parse, so the JSON tier falls through). -/
theorem c5_three_blocks_witness :
    parseMultiFileResponse "```markdown\nA\n```\n```typescript\nB\n```\n```json\nC\n```" =
      ⟨[⟨"file-0", "SKILL.md", "A\n", "markdown"⟩,
        ⟨"file-1", "src/file-1.ts", "B\n", "typescript"⟩,
        ⟨"file-2", "src/file-2.json", "C\n", "json"⟩], some flatManifest⟩ :=
  c5_three_blocks _ "A\n" "B\n" "C\n" (by rfl) (by rfl)

/-- C6 (counterexample): the claim says nothing is emitted after the
`[DONE]` sentinel.  On a stream whose only content line follows the
sentinel line, the consumer still emits the increment `x`: the sentinel
is handled with `continue`, not termination. -/
theorem c6_increment_after_done :
    (consumeStream ["data: [DONE]\ndata: \x7b\"content\":\"x\"\x7d\n"]).increments = ["x"] ∧
    (consumeStream ["data: [DONE]\ndata: \x7b\"content\":\"x\"\x7d\n"]).increments ≠ [] :=
  ⟨rfl, by decide⟩

/-- C6 (amended): a `data: ` line whose remainder equals `[DONE]` emits no
content increment and leaves the consumer state unchanged, but does not
terminate consumption — the remaining lines are processed exactly as if
the sentinel line were absent. -/
theorem c6_done_sentinel_skipped (st : StreamState) (lines : List String) :
    processLines st ("data: [DONE]" :: lines) = processLines st lines ∧
    processLine st "data: [DONE]" = st := by
  have h : processLine st "data: [DONE]" = st := rfl
  exact ⟨by simp [processLines, List.foldl_cons, h], h⟩

/-- Keys of the extension-to-language table. -/
def languageKeys : List String := languagesTable.map Prod.fst

/-- Keys of the language-to-extension table. -/
def languageNames : List String := extensionsTable.map Prod.fst

/-- C7: the classifier is total and pure: every path whose computed
extension is a key of the fixed table maps to the documented language, any
other path maps to `plaintext`; and the language-to-extension map returns
the documented extension for every language of its table and `txt` for
any other language. -/
theorem c7_classifier_total (path lang : String) :
    (∀ p ∈ languagesTable, pathExtension path = p.1 →
      getLanguageFromPath path = p.2) ∧
    (pathExtension path ∉ languageKeys → getLanguageFromPath path = "plaintext") ∧
    (∀ q ∈ extensionsTable, getFileExtension q.1 = q.2) ∧
    (lang ∉ languageNames → getFileExtension lang = "txt") := by
  refine ⟨?_, ?_, ?_, ?_⟩
  · intro p hp h
    fin_cases hp <;> (unfold getLanguageFromPath; rw [h]; rfl)
  · intro h
    simp only [languageKeys, languagesTable, List.map_cons, List.map_nil,
      List.mem_cons, List.not_mem_nil, or_false, not_or] at h
    obtain ⟨h1, h2, h3, h4, h5, h6, h7, h8, h9, h10, h11⟩ := h
    simp [getLanguageFromPath, lookupStr, languagesTable,
      h1, h2, h3, h4, h5, h6, h7, h8, h9, h10, h11]
  · intro q hq
    fin_cases hq <;> rfl
  · intro h
    simp only [languageNames, extensionsTable, List.map_cons, List.map_nil,
      List.mem_cons, List.not_mem_nil, or_false, not_or] at h
    obtain ⟨h1, h2, h3, h4, h5, h6, h7, h8⟩ := h
    simp [getFileExtension, lookupStr, extensionsTable,
      h1, h2, h3, h4, h5, h6, h7, h8]

/-- C7 witness: the classifier at concrete table and non-table inputs. -/
theorem c7_classifier_total_witness :
    getLanguageFromPath "a.md" = "markdown" ∧
    getLanguageFromPath "weird.xyz" = "plaintext" ∧
    getFileExtension "typescript" = "ts" ∧
    getFileExtension "python" = "txt" :=
  ⟨(c7_classifier_total "a.md" "python").1 ("md", "markdown") (by decide) (by decide),
   (c7_classifier_total "weird.xyz" "python").2.1 (by decide),
   (c7_classifier_total "a.md" "python").2.2.1 ("typescript", "ts") (by decide),
   (c7_classifier_total "a.md" "python").2.2.2 (by decide)⟩

/-- C8: the multi-file flag always agrees with file cardinality: an
artifact built from a file list has `isMultiFile` exactly when the list
has more than one file, and the post-parse multi-file UI branch (editor
files populated, flag set) is entered exactly when the parse result has
more than one file. -/
theorem c8_multifile_flag_agreement (fs : List EditorFile) (t s : String) :
    (filesToArtifact fs t).isMultiFile = decide (fs.length > 1) ∧
    (handleParsedResult s).isMultiFile =
      decide ((parseMultiFileResponse s).files.length > 1) ∧
    (handleParsedResult s).editorFiles.isSome =
      decide ((parseMultiFileResponse s).files.length > 1) := by
  refine ⟨rfl, ?_, ?_⟩ <;>
    (unfold handleParsedResult
     by_cases h : (parseMultiFileResponse s).files.length > 1 <;> simp [h])

/-- C9: packaging two or more files produces exactly one archive entry per
input file, in order, each entry named by the file's relative path and
carrying the file's content unchanged. -/
theorem c9_zip_archive (files : List EditorFile) (zipName : String)
    (h : 2 ≤ files.length) :
    createZip files zipName =
      Except.ok (ZipOutcome.archive
        (files.map (fun f => (f.path, f.content))) zipName) ∧
    (files.map (fun f => (f.path, f.content))).length = files.length ∧
    (files.map (fun f => (f.path, f.content))).map Prod.fst =
      files.map (fun f => f.path) ∧
    (files.map (fun f => (f.path, f.content))).map Prod.snd =
      files.map (fun f => f.content) := by
  match files, h with
  | f1 :: f2 :: rest, _ =>
    exact ⟨rfl, by simp, by simp, by simp⟩

/-- C9 witness: the round trip of a concrete two-file parse result. -/
theorem c9_zip_archive_witness :
    createZip [⟨"file-0", "SKILL.md", "X", "markdown"⟩,
               ⟨"file-1", "src/file-1.ts", "Y", "typescript"⟩] "artifact.zip" =
      Except.ok (ZipOutcome.archive
        [("SKILL.md", "X"), ("src/file-1.ts", "Y")] "artifact.zip") :=
  (c9_zip_archive [⟨"file-0", "SKILL.md", "X", "markdown"⟩,
                   ⟨"file-1", "src/file-1.ts", "Y", "typescript"⟩]
    "artifact.zip" (by decide)).1

/-- C10: a fenced block whose opening fence carries no (or an empty)
language tag is assigned language `markdown`, not the classifier's
`plaintext` default, and as a non-first block it is therefore named
`src/file-<index>.md`. -/
theorem c10_untagged_block_markdown (b : FencedBlock) (i : Nat) (h : b.tag = "") :
    (blockToFile i b).language = "markdown" ∧
    (i ≠ 0 → (blockToFile i b).path = "src/file-" ++ toString i ++ ".md") := by
  unfold blockToFile
  rw [h]
  refine ⟨rfl, fun hi => ?_⟩
  simp [hi, getFileExtension, lookupStr, extensionsTable]
  rw [strAppend_assoc]
  congr 1

/-- C10 witness: the second block of a response with an untagged fence. -/
theorem c10_untagged_block_markdown_witness :
    (blockToFile 1 ⟨"", "hello"⟩).language = "markdown" ∧
    (blockToFile 1 ⟨"", "hello"⟩).path = "src/file-1.md" :=
  ⟨(c10_untagged_block_markdown ⟨"", "hello"⟩ 1 rfl).1,
   (c10_untagged_block_markdown ⟨"", "hello"⟩ 1 rfl).2 (by decide)⟩
